import Mathlib

/-!
Verification development for the MoMo SMS ETL pipeline
(`src/etl/sms_processor.py`, class `MomoSmsProcessor`).

The Python code is shallowly embedded: Python strings become `List Char`
(`PyStr`), SMS message dicts become the `Msg` structure with optional
fields (a missing dict key is `none`), `datetime` values become rational
seconds-since-epoch with the current wall clock passed as a parameter,
Python floats become exact rationals, and the fallible extractor becomes
an `Except`-valued function whose error value is the dead-letter payload.
The handful of regular expressions in the source are embedded as
deterministic matchers; each is deterministic because the character
classes of adjacent regex pieces are disjoint, so greedy matching with
backtracking coincides with maximal-munch scanning, position by position,
exactly as `re.search` scans for the leftmost match.
-/

set_option autoImplicit false

namespace MomoSms

/-- Python strings are modelled as lists of characters. -/
abbrev PyStr := List Char

/-- ASCII lower-casing of one character, as `str.lower()` acts on the
ASCII message bodies this pipeline receives. -/
def pyLowerChar (c : Char) : Char :=
  if 'A' ≤ c ∧ c ≤ 'Z' then Char.ofNat (c.toNat + 32) else c

/-- `str.lower()`. -/
def pyLower (s : PyStr) : PyStr := s.map pyLowerChar

/-- Python's substring test `needle in hay`. -/
def pyContains (hay needle : PyStr) : Bool :=
  hay.tails.any fun t => needle.isPrefixOf t

/-- ASCII whitespace, the characters matched by the regex class `\s`
(and stripped by `str.strip()`). -/
def isPySpace (c : Char) : Bool :=
  c == ' ' || c == '\t' || c == '\n' || c == '\r' || c == '\x0b' || c == '\x0c'

/-- Decimal digit, the regex class `\d` on ASCII input. -/
def isPyDigit (c : Char) : Bool := '0' ≤ c && c ≤ '9'

/-- The regex class `[\d,.]` used by the amount patterns. -/
def isAmountChar (c : Char) : Bool := isPyDigit c || c == ',' || c == '.'

/-- The regex class `\w` on ASCII input. -/
def isWordChar (c : Char) : Bool :=
  isPyDigit c || ('a' ≤ c && c ≤ 'z') || ('A' ≤ c && c ≤ 'Z') || c == '_'

/-- `str.strip()`: drop ASCII whitespace from both ends. -/
def pyStrip (s : PyStr) : PyStr :=
  ((s.dropWhile isPySpace).reverse.dropWhile isPySpace).reverse

/-- An SMS record as produced by `xmltodict`: the `@body`, `@date` and
`@address` attributes, each possibly absent. -/
structure Msg where
  body : Option PyStr
  date : Option PyStr
  address : Option PyStr
deriving DecidableEq, Repr

/-- `MomoSmsProcessor.CASH_IN_KEYWORDS`. -/
def CASH_IN_KEYWORDS : List PyStr :=
  ["received", "cash in", "payment received", "paid"].map String.toList

/-- `MomoSmsProcessor.CASH_OUT_KEYWORDS`. -/
def CASH_OUT_KEYWORDS : List PyStr :=
  ["withdrew", "cash out", "paid", "payment"].map String.toList

/-- `MomoSmsProcessor.CATEGORIES`: category names paired with their
keyword lists, in declaration order (Python dicts iterate in insertion
order). -/
def CATEGORIES : List (String × List PyStr) :=
  [("bills", ["bill", "dstv", "electricity", "water", "utility"].map String.toList),
   ("shopping", ["shop", "store", "market", "mall", "purchase"].map String.toList),
   ("food", ["food", "restaurant", "cafe", "meal", "grocery"].map String.toList),
   ("transport", ["transport", "uber", "taxi", "fare", "ride"].map String.toList),
   ("entertainment", ["entertainment", "movie", "cinema", "game", "ticket"].map String.toList),
   ("education", ["school", "tuition", "fee", "education", "college"].map String.toList),
   ("health", ["health", "hospital", "medical", "pharmacy", "doctor"].map String.toList),
   ("transfer", ["transfer", "sent to", "received from"].map String.toList),
   ("airtime", ["airtime", "data", "bundle", "credit", "recharge"].map String.toList),
   ("withdrawal", ["withdraw", "atm", "agent", "cash out"].map String.toList),
   ("deposit", ["deposit", "cash in", "load"].map String.toList),
   ("salary", ["salary", "payroll", "wage", "income"].map String.toList),
   ("savings", ["save", "savings", "investment"].map String.toList),
   ("loan", ["loan", "borrow", "credit", "debt"].map String.toList),
   ("other", [])]

/-- The indicator substrings tested by `is_momo_sms`. -/
def momo_indicators : List PyStr :=
  ["momo", "mobile money", "transaction", "received", "sent",
   "cash in", "cash out", "withdraw", "deposit"].map String.toList

/-- `MomoSmsProcessor.is_momo_sms`: `False` when `@body` is absent,
otherwise whether any indicator occurs in the lower-cased body. -/
def is_momo_sms (m : Msg) : Bool :=
  match m.body with
  | none => false
  | some b => momo_indicators.any fun ind => pyContains (pyLower b) ind

/-- The loop body of `categorize_transaction`: walk the category table in
order and return the first category one of whose keywords occurs in the
description; fall through to `"other"`. -/
def categorizeAux : List (String × List PyStr) → PyStr → String
  | [], _ => "other"
  | (cat, kws) :: rest, d =>
    if kws.any (fun kw => pyContains d kw) then cat else categorizeAux rest d

/-- `MomoSmsProcessor.categorize_transaction`. -/
def categorize_transaction (description : PyStr) : String :=
  categorizeAux CATEGORIES description

/-!
### Embedded regular expressions

Each `match…At` function decides whether its pattern matches at the start
of the given suffix and, if so, returns the captured group (or, for the
phone pattern, the whole match).  `searchAux` then scans suffixes left to
right, which is exactly `re.search`'s leftmost-match rule.  Greedy
backtracking never changes the outcome for these particular patterns
because every adjacent pair of regex pieces draws from disjoint character
sets, so each quantifier can only consume its maximal run.
-/

/-- Case-insensitive literal: if `s` starts with `lit` (compared after
lower-casing), return the remainder of `s`. -/
def ciLit : PyStr → PyStr → Option PyStr
  | [], s => some s
  | _ :: _, [] => none
  | l :: ls, c :: cs => if pyLowerChar c == pyLowerChar l then ciLit ls cs else none

/-- Leftmost-match scan: try `matchAt` at every suffix, left to right. -/
def searchAux (matchAt : PyStr → Option PyStr) : PyStr → Option PyStr
  | [] => matchAt []
  | c :: rest =>
    match matchAt (c :: rest) with
    | some g => some g
    | none => searchAux matchAt rest

/-- `RWF\s*([\d,.]+)` at one position (case-insensitive). -/
def matchRwfNumAt (s : PyStr) : Option PyStr :=
  (ciLit "rwf".toList s).bind fun r =>
    let g := (r.dropWhile isPySpace).takeWhile isAmountChar
    if g.isEmpty then none else some g

/-- `([\d,.]+)\s*RWF` at one position (case-insensitive). -/
def matchNumRwfAt (s : PyStr) : Option PyStr :=
  let g := s.takeWhile isAmountChar
  if g.isEmpty then none
  else if (ciLit "rwf".toList ((s.drop g.length).dropWhile isPySpace)).isSome then
    some g
  else none

/-- `amount[:\s]*RWF\s*([\d,.]+)` at one position (case-insensitive). -/
def matchAmountRwfAt (s : PyStr) : Option PyStr :=
  (ciLit "amount".toList s).bind fun r =>
    (ciLit "rwf".toList (r.dropWhile fun c => c == ':' || isPySpace c)).bind fun r2 =>
      let g := (r2.dropWhile isPySpace).takeWhile isAmountChar
      if g.isEmpty then none else some g

/-- `amount[:\s]*([\d,.]+)` at one position (case-insensitive). -/
def matchAmountNumAt (s : PyStr) : Option PyStr :=
  (ciLit "amount".toList s).bind fun r =>
    let g := (r.dropWhile fun c => c == ':' || isPySpace c).takeWhile isAmountChar
    if g.isEmpty then none else some g

/-- `([\d,.]+)\s*francs` at one position (case-insensitive). -/
def matchNumFrancsAt (s : PyStr) : Option PyStr :=
  let g := s.takeWhile isAmountChar
  if g.isEmpty then none
  else if (ciLit "francs".toList ((s.drop g.length).dropWhile isPySpace)).isSome then
    some g
  else none

/-- `(?:\+|0)[\d\s]{9,}` at one position; returns the whole match, as the
source uses `match.group()`. -/
def matchPhoneAt (s : PyStr) : Option PyStr :=
  match s with
  | [] => none
  | c :: rest =>
    if c == '+' || c == '0' then
      let run := rest.takeWhile fun d => isPyDigit d || isPySpace d
      if 9 ≤ run.length then some (c :: run) else none
    else none

/-- `<lit>[:\s]*(\w+)` at one position (case-insensitive); used with the
literals `ref`, `reference` and `id`. -/
def matchRefAt (lit : PyStr) (s : PyStr) : Option PyStr :=
  (ciLit lit s).bind fun r =>
    let g := (r.dropWhile fun c => c == ':' || isPySpace c).takeWhile isWordChar
    if g.isEmpty then none else some g

/-!
### Python numeric parsing
-/

/-- Value of a digit string, most significant first. -/
def digitsToNat (ds : PyStr) : ℕ :=
  ds.foldl (fun a c => 10 * a + (c.toNat - '0'.toNat)) 0

/-- `float(s)` on the comma-stripped capture of `[\d,.]+` (so `s` holds
only digits and dots): at most one dot and at least one digit, the value
taken exactly as a rational.  Rejects `""`, `"."` and multi-dot strings,
which raise `ValueError` in Python. -/
def parsePyFloat (s : PyStr) : Option ℚ :=
  let intPart := s.takeWhile (· != '.')
  match s.dropWhile (· != '.') with
  | [] => if s ≠ [] ∧ s.all isPyDigit then some (digitsToNat s : ℚ) else none
  | _ :: frac =>
    if intPart.all isPyDigit ∧ frac.all isPyDigit ∧ (intPart ≠ [] ∨ frac ≠ []) then
      some ((digitsToNat intPart : ℚ) + (digitsToNat frac : ℚ) / (10 ^ frac.length : ℚ))
    else none

/-- Tail of a valid `int()` digit run: digits with single underscores
allowed strictly between digits (Python 3 numeric grouping). -/
def validDigitsTail : PyStr → Bool
  | [] => true
  | '_' :: c :: rest => isPyDigit c && validDigitsTail rest
  | ['_'] => false
  | c :: rest => isPyDigit c && validDigitsTail rest

/-- A nonempty digit run, underscores permitted between digits. -/
def validDigitsU : PyStr → Bool
  | [] => false
  | c :: rest => isPyDigit c && validDigitsTail rest

/-- Parse an unsigned digit run as `int()` does. -/
def parseDigitsU (ds : PyStr) : Option ℕ :=
  if validDigitsU ds then some (digitsToNat (ds.filter (· != '_'))) else none

/-- Python `int(s)` on an ASCII string: strip surrounding whitespace,
allow one optional sign, then a digit run; `none` models `ValueError`. -/
def pyIntParse (s : PyStr) : Option ℤ :=
  match pyStrip s with
  | '+' :: ds => (parseDigitsU ds).map fun n => (n : ℤ)
  | '-' :: ds => (parseDigitsU ds).map fun n => -(n : ℤ)
  | ds => (parseDigitsU ds).map fun n => (n : ℤ)

/-!
### The extractor (`extract_transaction_details`)

`datetime` values are modelled as rational seconds since the epoch; the
current wall-clock time is the parameter `now`.  Calendar rendering
(`strftime`) is outside the embedding, so the `date` and `processed_date`
fields hold the underlying instants.
-/

/-- Outcome of `datetime.fromtimestamp`: an in-range calendar datetime,
a `ValueError` (which the source's `except (ValueError, TypeError)`
clause catches), or an `OverflowError`/`OSError` (which that clause does
**not** catch, so it propagates out of the timestamp step). -/
inductive FromTsResult where
  | ok
  | valueError
  | fatal
deriving DecidableEq, Repr

/-- Epoch milliseconds of `datetime.min` (0001-01-01T00:00:00, UTC). -/
def DATETIME_MIN_MS : ℤ := -62135596800000

/-- Epoch milliseconds of the first instant past `datetime.max`
(10000-01-01T00:00:00, UTC); timestamps at or beyond it raise
`ValueError: year is out of range`. -/
def DATETIME_MAX_MS : ℤ := 253402300800000

/-- Approximate lower bound, in epoch milliseconds, of the C `localtime`
range on a 64-bit glibc system (`tm_year` is a C `int`); timestamps
below it raise an uncaught `OSError`/`OverflowError`. -/
def LOCALTIME_MIN_MS : ℤ := -67768036191676800000

/-- Approximate upper bound, in epoch milliseconds, of the C `localtime`
range on a 64-bit glibc system; timestamps beyond it raise an uncaught
`OSError`/`OverflowError`, as do the still larger values that overflow
`time_t` or the float division itself. -/
def LOCALTIME_MAX_MS : ℤ := 67768036191676800000

/-- How `datetime.fromtimestamp(n / 1000)` behaves on CPython / 64-bit
Linux (glibc) for the parsed integer `n` of milliseconds: in-range
timestamps convert, timestamps outside the `datetime` year range but
within `localtime`'s range raise a `ValueError`, and anything beyond
raises `OSError`/`OverflowError`.  Thresholding the milliseconds is
exactly thresholding the seconds value `n / 1000`.  The `LOCALTIME_*`
boundaries (and the time-zone offset of the `DATETIME_*` ones) are
approximate by a bounded amount; every concrete input used below lies
orders of magnitude away from them. -/
def classifyTimestamp (millis : ℤ) : FromTsResult :=
  if millis < LOCALTIME_MIN_MS ∨ LOCALTIME_MAX_MS < millis then .fatal
  else if millis < DATETIME_MIN_MS ∨ DATETIME_MAX_MS ≤ millis then .valueError
  else .ok

/-- The timestamp-resolution step: `message.get('@date', '')`, then
`datetime.fromtimestamp(int(date_str) / 1000)` guarded by
`except (ValueError, TypeError)`.  `datetime.now()` is the fallback for
an absent/empty attribute, a failed `int()` parse, and a
`fromtimestamp` `ValueError`; a `fromtimestamp` `OverflowError`/`OSError`
is not caught here and aborts the extraction of the message.  The
converted datetime is its exact epoch seconds `n / 1000`
(sub-millisecond float rounding is abstracted away). -/
def resolveDate (dateAttr : Option PyStr) (now : ℚ) : Except PyStr ℚ :=
  let date_str := dateAttr.getD []
  if date_str = [] then .ok now
  else
    match pyIntParse date_str with
    | none => .ok now
    | some n =>
      match classifyTimestamp n with
      | .ok => .ok ((n : ℚ) / 1000)
      | .valueError => .ok now
      | .fatal => .error "OverflowError: timestamp out of range".toList

/-- First `some` in a list of attempts, as the `for … break` /
`continue` loops over pattern lists behave. -/
def firstSome {α : Type} : List (Option α) → Option α
  | [] => none
  | some a :: _ => some a
  | none :: rest => firstSome rest

/-- One iteration of the amount loop: `re.search` the pattern, and on a
match strip commas from group 1 and try `float()`; `none` covers both a
failed search and a `ValueError` from `float()` (the loop's `continue`). -/
def runPattern (matchAt : PyStr → Option PyStr) (body : PyStr) : Option ℚ :=
  (searchAux matchAt body).bind fun g => parsePyFloat (g.filter (· != ','))

/-- Outcomes of the five `amount_patterns`, in the order listed in the
source. -/
def amountResults (body : PyStr) : List (Option ℚ) :=
  [runPattern matchRwfNumAt body,
   runPattern matchNumRwfAt body,
   runPattern matchAmountRwfAt body,
   runPattern matchAmountNumAt body,
   runPattern matchNumFrancsAt body]

/-- The amount loop: first pattern whose capture parses wins, default
`0.0`. -/
def extractAmount (body : PyStr) : ℚ :=
  (firstSome (amountResults body)).getD 0

/-- Type classification: the CASH_IN keyword set is tested first on the
lower-cased body, then the CASH_OUT set, else `OTHER`. -/
def transactionType (body_lower : PyStr) : String :=
  if CASH_IN_KEYWORDS.any (fun k => pyContains body_lower k) then "CASH_IN"
  else if CASH_OUT_KEYWORDS.any (fun k => pyContains body_lower k) then "CASH_OUT"
  else "OTHER"

/-- Phone extraction: first match of `(?:\+|0)[\d\s]{9,}`, stripped. -/
def extractPhone (body : PyStr) : Option PyStr :=
  (searchAux matchPhoneAt body).map pyStrip

/-- Reference extraction: the three `ref_patterns` in order, first match
wins. -/
def extractReference (body : PyStr) : Option PyStr :=
  firstSome
    [searchAux (matchRefAt "ref".toList) body,
     searchAux (matchRefAt "reference".toList) body,
     searchAux (matchRefAt "id".toList) body]

/-- The record assembled by `extract_transaction_details`. -/
structure Transaction where
  date : ℚ
  description : PyStr
  amount : ℚ
  type : String
  category : String
  phone : Option PyStr
  reference : Option PyStr
  processed_date : ℚ
deriving DecidableEq, Repr

/-- `MomoSmsProcessor.extract_transaction_details`.  Two statements in
the guarded block can raise past the inner handler: `message['@body']`
(`KeyError` when the attribute is absent) and
`datetime.fromtimestamp` (an `OverflowError`/`OSError` for a timestamp
beyond the platform range, which the inner
`except (ValueError, TypeError)` does not catch).  Either way the outer
`except` branch returns the tagged failure that `save_to_dead_letter`
records, so the embedding returns `Except` with the error description as
the payload. -/
def extract_transaction_details (now : ℚ) (m : Msg) : Except PyStr Transaction :=
  match m.body with
  | none => .error "KeyError: @body".toList
  | some body =>
    match resolveDate m.date now with
    | .error e => .error e
    | .ok date =>
      let body_lower := pyLower body
      .ok
        { date := date
          description := body
          amount := extractAmount body
          type := transactionType body_lower
          category := categorize_transaction body_lower
          phone := extractPhone body
          reference := extractReference body
          processed_date := now }

/-- The per-message loop of `MomoSmsProcessor.process`: messages passing
`is_momo_sms` are handed to the extractor, successes are appended to the
transaction list, failures go to the dead-letter queue, and every other
message is skipped.  Returns (transactions, dead letters), each in
message order. -/
def processMessages (now : ℚ) : List Msg → List Transaction × List (Msg × PyStr)
  | [] => ([], [])
  | m :: ms =>
    let rest := processMessages now ms
    if is_momo_sms m then
      match extract_transaction_details now m with
      | .ok t => (t :: rest.1, rest.2)
      | .error e => (rest.1, (m, e) :: rest.2)
    else rest

/-!
### Statistics (`calculate_stats`)

The returned Python dict is embedded as an association list of
(key, value) entries in insertion order.  `pandas` `value_counts` /
`groupby` keys are the distinct values occurring in the batch; their
iteration order does not affect any claim, and is taken here as
first-occurrence order (`dedup`).
-/

/-- A stat value: integer count or rational amount. -/
inductive StatValue where
  | int (n : ℤ)
  | rat (q : ℚ)
deriving DecidableEq, Repr

/-- Distinct transaction types in the batch. -/
def typesOf (ts : List Transaction) : List String :=
  (ts.map (·.type)).dedup

/-- Distinct categories in the batch. -/
def categoriesOf (ts : List Transaction) : List String :=
  (ts.map (·.category)).dedup

/-- `df['amount'].sum()`. -/
def totalAmount (ts : List Transaction) : ℚ :=
  (ts.map (·.amount)).sum

/-- Number of transactions of one type (`value_counts`). -/
def countForType (ts : List Transaction) (ty : String) : ℕ :=
  (ts.filter fun t => t.type == ty).length

/-- Number of transactions in one category (`value_counts`). -/
def countForCategory (ts : List Transaction) (c : String) : ℕ :=
  (ts.filter fun t => t.category == c).length

/-- Amount sum of one category (`groupby('category')['amount'].sum()`). -/
def amountForCategory (ts : List Transaction) (c : String) : ℚ :=
  ((ts.filter fun t => t.category == c).map (·.amount)).sum

/-- `str.lower()` on a whole `String`. -/
def pyLowerStr (s : String) : String := ⟨pyLower s.toList⟩

/-- The `count_<type>` entries. -/
def typeCountSection (ts : List Transaction) : List (String × StatValue) :=
  (typesOf ts).map fun ty => ("count_" ++ pyLowerStr ty, StatValue.int (countForType ts ty))

/-- The `count_category_<name>` entries. -/
def categoryCountSection (ts : List Transaction) : List (String × StatValue) :=
  (categoriesOf ts).map fun c => ("count_category_" ++ c, StatValue.int (countForCategory ts c))

/-- The `amount_category_<name>` entries. -/
def categoryAmountSection (ts : List Transaction) : List (String × StatValue) :=
  (categoriesOf ts).map fun c => ("amount_category_" ++ c, StatValue.rat (amountForCategory ts c))

/-- `MomoSmsProcessor.calculate_stats`: the empty dict for an empty
batch (the guard returns before any aggregation, so the mean's division
is unreachable); otherwise totals, the average, and the per-type and
per-category breakdowns. -/
def calculate_stats (ts : List Transaction) : List (String × StatValue) :=
  if ts = [] then []
  else
    [("total_transactions", StatValue.int ts.length),
     ("total_amount", StatValue.rat (totalAmount ts)),
     ("avg_transaction_amount", StatValue.rat (totalAmount ts / ts.length))]
    ++ typeCountSection ts
    ++ categoryCountSection ts
    ++ categoryAmountSection ts

/-- The body of the §8 scenario message. -/
def scenarioBody : PyStr :=
  ("You have received RWF 500000 from JOHN DOE (0244123456) on 01/05/23 at 08:15 AM. "
    ++ "Reference: TX123456789. Fee charged: RWF 0. Available Balance: RWF 1250000").toList

/-- The §8 scenario message (epoch milliseconds `1683014100000` is
01/05/23 08:15 AM). -/
def scenarioMsg : Msg :=
  { body := some scenarioBody
    date := some "1683014100000".toList
    address := some "MoMo".toList }

/-- A small concrete batch used to exercise the statistics claims. -/
def sampleBatch : List Transaction :=
  [{ date := 0, description := [], amount := 3, type := "CASH_IN", category := "other",
     phone := none, reference := none, processed_date := 0 },
   { date := 0, description := [], amount := 4, type := "OTHER", category := "bills",
     phone := none, reference := none, processed_date := 0 }]

/-!
## Helper lemmas
-/

/-- The category loop returns `"other"` or one of the listed names. -/
theorem categorizeAux_mem (cats : List (String × List PyStr)) (d : PyStr) :
    categorizeAux cats d = "other" ∨ categorizeAux cats d ∈ cats.map Prod.fst := by
  induction cats with
  | nil => left; rfl
  | cons p rest ih =>
    obtain ⟨cat, kws⟩ := p
    by_cases h : kws.any (fun kw => pyContains d kw) = true
    · right; simp [categorizeAux, h]
    · have h' : kws.any (fun kw => pyContains d kw) = false := by
        cases hb : kws.any (fun kw => pyContains d kw) <;> simp_all
      rcases ih with h1 | h1
      · left; simpa [categorizeAux, h'] using h1
      · right; simp [categorizeAux, h']
        right
        simpa using h1

/-- Provided `"other"` only ever names an empty keyword list, the loop
returns `"other"` exactly when no keyword of any category occurs. -/
theorem categorizeAux_eq_other_iff (cats : List (String × List PyStr)) (d : PyStr)
    (hother : ∀ p ∈ cats, p.1 = "other" → p.2 = []) :
    categorizeAux cats d = "other" ↔ ∀ p ∈ cats, ∀ kw ∈ p.2, pyContains d kw = false := by
  induction cats with
  | nil => simp [categorizeAux]
  | cons p rest ih =>
    obtain ⟨cat, kws⟩ := p
    have hrest := ih fun q hq => hother q (List.mem_cons_of_mem _ hq)
    by_cases h : kws.any (fun kw => pyContains d kw) = true
    · constructor
      · intro hcat
        have hcat' : cat = "other" := by simpa [categorizeAux, h] using hcat
        have hnil : kws = [] := hother (cat, kws) (List.mem_cons_self _ _) hcat'
        rw [hnil] at h
        simp at h
      · intro hall
        exfalso
        rcases List.any_eq_true.mp h with ⟨kw, hkw, hc⟩
        have := hall (cat, kws) (List.mem_cons_self _ _) kw hkw
        simp_all
    · have h' : kws.any (fun kw => pyContains d kw) = false := by
        cases hb : kws.any (fun kw => pyContains d kw) <;> simp_all
      have hkall : ∀ kw ∈ kws, pyContains d kw = false := by
        intro kw hkw
        by_contra hc
        have : pyContains d kw = true := by
          cases hb : pyContains d kw <;> simp_all
        exact h (List.any_eq_true.mpr ⟨kw, hkw, this⟩)
      rw [show categorizeAux ((cat, kws) :: rest) d = categorizeAux rest d by
            simp [categorizeAux, h'], hrest]
      constructor
      · intro hr q hq
        rcases List.mem_cons.mp hq with hq1 | hq2
        · intro kw hkw
          exact hkall kw (by rw [hq1] at hkw; exact hkw)
        · exact hr q hq2
      · intro hall q hq
        exact hall q (List.mem_cons_of_mem _ hq)

/-- `firstSome` returns the entry at the first index holding a `some`. -/
theorem firstSome_eq_get {α : Type} :
    ∀ (l : List (Option α)) (i : ℕ) (hi : i < l.length) (a : α),
      (∀ j (hj : j < l.length), j < i → l.get ⟨j, hj⟩ = none) →
      l.get ⟨i, hi⟩ = some a → firstSome l = some a := by
  intro l
  induction l with
  | nil => intro i hi; simp at hi
  | cons x rest ih =>
    intro i hi a hprev hget
    cases i with
    | zero =>
      simp at hget
      rw [hget]
      rfl
    | succ n =>
      have hx : x = none := hprev 0 (by simp) (Nat.succ_pos n)
      subst hx
      show firstSome rest = some a
      exact ih n (by simpa using hi) a
        (fun j hj hjn => hprev (j + 1) (by simpa using hj) (Nat.succ_lt_succ hjn))
        hget

/-- `firstSome` of an all-`none` list is `none`. -/
theorem firstSome_eq_none {α : Type} :
    ∀ (l : List (Option α)), (∀ i (hi : i < l.length), l.get ⟨i, hi⟩ = none) →
      firstSome l = none := by
  intro l
  induction l with
  | nil => intro _; rfl
  | cons x rest ih =>
    intro h
    have hx : x = none := h 0 (by simp)
    subst hx
    show firstSome rest = none
    exact ih fun i hi => h (i + 1) (by simpa using hi)

section SumPartition

variable {α K M : Type} [AddCommMonoid M]

/-- Pointwise-sum split of a mapped list sum. -/
theorem sum_map_add_split (d : List K) (f g : K → M) :
    (d.map fun c => f c + g c).sum = (d.map f).sum + (d.map g).sum := by
  induction d with
  | nil => simp
  | cons c rest ih =>
    simp only [List.map_cons, List.sum_cons, ih]
    abel

variable [BEq K] [LawfulBEq K]

/-- If the key is absent, the indicator sum vanishes. -/
theorem sum_map_ite_of_not_mem (d : List K) (k : K) (v : M) (hk : k ∉ d) :
    (d.map fun c => if k == c then v else 0).sum = 0 := by
  induction d with
  | nil => rfl
  | cons c rest ih =>
    have hne : (k == c) = false := beq_eq_false_iff_ne.mpr fun h => hk (by rw [h]; exact List.mem_cons_self _ _)
    simp only [List.map_cons, List.sum_cons, hne, if_neg (by simp [hne] : ¬((k == c) = true))]
    rw [ih fun h => hk (List.mem_cons_of_mem _ h)]
    simp

/-- Over a duplicate-free key list containing `k`, the indicator sum is
the single value `v`. -/
theorem sum_map_ite_of_mem (d : List K) (k : K) (v : M) (hnd : d.Nodup) (hk : k ∈ d) :
    (d.map fun c => if k == c then v else 0).sum = v := by
  induction d with
  | nil => simp at hk
  | cons c rest ih =>
    rcases List.mem_cons.mp hk with hk1 | hk2
    · subst hk1
      simp only [List.map_cons, List.sum_cons, beq_self_eq_true, if_pos rfl]
      rw [sum_map_ite_of_not_mem rest k v (List.nodup_cons.mp hnd).1]
      simp
    · have hne : (k == c) = false := by
        apply beq_eq_false_iff_ne.mpr
        intro h
        exact (List.nodup_cons.mp hnd).1 (h ▸ hk2)
      simp only [List.map_cons, List.sum_cons, hne, if_neg (by simp [hne] : ¬((k == c) = true))]
      rw [ih (List.nodup_cons.mp hnd).2 hk2]
      simp

/-- Fiberwise decomposition: summing, over a duplicate-free list of keys
covering a batch, the value sums of the fibers yields the total sum. -/
theorem sum_fibers (k : α → K) (v : α → M) :
    ∀ (xs : List α) (d : List K), d.Nodup → (∀ x ∈ xs, k x ∈ d) →
      (d.map fun c => ((xs.filter fun x => k x == c).map v).sum).sum = (xs.map v).sum := by
  intro xs
  induction xs with
  | nil => intro d _ _; simp
  | cons x rest ih =>
    intro d hnd hmem
    have hx : k x ∈ d := hmem x (List.mem_cons_self _ _)
    have hstep : ∀ c : K,
        (((x :: rest).filter fun y => k y == c).map v).sum
          = (if k x == c then v x else 0) + ((rest.filter fun y => k y == c).map v).sum := by
      intro c
      by_cases hc : (k x == c) = true
      · simp [List.filter_cons, hc]
      · have hc' : (k x == c) = false := by cases hb : (k x == c) <;> simp_all
        simp [List.filter_cons, hc']
    calc (d.map fun c => (((x :: rest).filter fun y => k y == c).map v).sum).sum
        = (d.map fun c => (if k x == c then v x else 0)
            + ((rest.filter fun y => k y == c).map v).sum).sum := by
          congr 1
          exact List.map_congr_left fun c _ => hstep c
      _ = (d.map fun c => if k x == c then v x else 0).sum
            + (d.map fun c => ((rest.filter fun y => k y == c).map v).sum).sum :=
          sum_map_add_split d _ _
      _ = v x + (rest.map v).sum := by
          rw [sum_map_ite_of_mem d (k x) (v x) hnd hx,
            ih d hnd fun y hy => hmem y (List.mem_cons_of_mem _ hy)]
      _ = ((x :: rest).map v).sum := by simp

end SumPartition

/-- A constant-one sum counts length. -/
theorem sum_map_one {α : Type} (l : List α) : (l.map fun _ => (1 : ℕ)).sum = l.length := by
  induction l with
  | nil => rfl
  | cons x rest ih => simp [ih, Nat.add_comm]

/-!
## Claims
-/

/-- Claim C1, counterexample: the batch whose single message has body
`"hello"` (which contains no MoMo indicator) produces neither a
Transaction nor a dead-letter record for that message, so it is not the
case that every message in the batch yields exactly one of the two
outcomes. -/
theorem claim1_counterexample :
    processMessages 0 [{ body := some "hello".toList, date := some "1".toList,
                         address := some "MTN".toList }] = ([], []) := by
  rfl

/-- Claim C1, amended: for every message that `is_momo_sms` classifies
as a MoMo SMS, exactly one of the two outcomes occurs — either exactly
one Transaction is appended and the dead-letter queue is untouched, or
exactly one dead-letter record is written and the Transaction output is
untouched.  (Messages failing the classifier are skipped and yield
neither; see C10.) -/
theorem claim1_amended (now : ℚ) (m : Msg) (ms : List Msg) (h : is_momo_sms m = true) :
    (∃ t, processMessages now (m :: ms)
        = (t :: (processMessages now ms).1, (processMessages now ms).2)) ∨
    (∃ e, processMessages now (m :: ms)
        = ((processMessages now ms).1, (m, e) :: (processMessages now ms).2)) := by
  cases hx : extract_transaction_details now m with
  | ok t => exact Or.inl ⟨t, by simp [processMessages, h, hx]⟩
  | error e => exact Or.inr ⟨e, by simp [processMessages, h, hx]⟩

/-- Witness for C1 at the concrete MoMo message with body `"momo"`. -/
theorem claim1_witness :
    is_momo_sms { body := some "momo".toList, date := none, address := none } = true ∧
    ((∃ t, processMessages 0 [{ body := some "momo".toList, date := none, address := none }]
        = (t :: (processMessages 0 []).1, (processMessages 0 []).2)) ∨
     (∃ e, processMessages 0 [{ body := some "momo".toList, date := none, address := none }]
        = ((processMessages 0 []).1,
           ({ body := some "momo".toList, date := none, address := none }, e)
             :: (processMessages 0 []).2))) :=
  ⟨by decide, claim1_amended 0 _ [] (by decide)⟩

/-- Claim C2, counterexample: on the §8 scenario body the extractor
does not return reference `"TX123456789"` and does not return a category
in {deposit, transfer, other}: the first `ref_patterns` regex
`ref[:\s]*(\w+)` matches inside the word `"Reference"` and captures
`"erence"`, and the keyword `"fee"` (a substring of `"Fee charged"`)
selects the `"education"` category before the transfer or deposit rows
of the table are reached. -/
theorem claim2_counterexample :
    (extract_transaction_details 1683014100 scenarioMsg).map
        (fun t => (t.reference, t.category))
      = .ok (some "erence".toList, "education") := by
  rfl

/-- Claim C2, amended: on the §8 scenario body
`extract_transaction_details` returns a Transaction with
type = CASH_IN, amount = 500000.0, reference = `"erence"` and
category = `"education"`. -/
theorem claim2_amended :
    (extract_transaction_details 1683014100 scenarioMsg).map
        (fun t => (t.type, t.amount, t.reference, t.category))
      = .ok ("CASH_IN", (500000 : ℚ), some "erence".toList, "education") := by
  rfl

/-- Claim C3: `categorize_transaction` is total — for every input string
it returns one label of the fixed 15-label set (walking the category
table in declaration order, as `categorizeAux` does, and returning the
first category with a keyword occurring in the input) — and it returns
`"other"` precisely when no keyword of any of the other categories
occurs in the input. -/
theorem claim3_categorizer_total (d : PyStr) :
    categorize_transaction d ∈
      ["bills", "shopping", "food", "transport", "entertainment", "education", "health",
       "transfer", "airtime", "withdrawal", "deposit", "salary", "savings", "loan", "other"] ∧
    (categorize_transaction d = "other" ↔
      ∀ p ∈ CATEGORIES, ∀ kw ∈ p.2, pyContains d kw = false) := by
  constructor
  · rcases categorizeAux_mem CATEGORIES d with h | h
    · rw [categorize_transaction, h]
      decide
    · exact h
  · exact categorizeAux_eq_other_iff CATEGORIES d (by decide)

/-- Witness for C3 at the concrete description `"xyz"`, which matches no
keyword. -/
theorem claim3_witness : categorize_transaction "xyz".toList = "other" :=
  (claim3_categorizer_total "xyz".toList).2.mpr (by decide)

/-- Claim C4: the type classifier tests the lower-cased body against the
CASH_IN keyword set first and the CASH_OUT set second; any body
containing a keyword common to both sets is classified CASH_IN, and any
body containing no keyword of either set is classified OTHER. -/
theorem claim4_type_order (b : PyStr) :
    ((∃ k, k ∈ CASH_IN_KEYWORDS ∧ k ∈ CASH_OUT_KEYWORDS ∧ pyContains (pyLower b) k = true) →
      transactionType (pyLower b) = "CASH_IN") ∧
    ((∀ k ∈ CASH_IN_KEYWORDS, pyContains (pyLower b) k = false) →
      (∀ k ∈ CASH_OUT_KEYWORDS, pyContains (pyLower b) k = false) →
      transactionType (pyLower b) = "OTHER") := by
  constructor
  · rintro ⟨k, hin, _, hc⟩
    have hany : CASH_IN_KEYWORDS.any (fun kw => pyContains (pyLower b) kw) = true :=
      List.any_eq_true.mpr ⟨k, hin, hc⟩
    simp [transactionType, hany]
  · intro hallin hallout
    have h1 : CASH_IN_KEYWORDS.any (fun kw => pyContains (pyLower b) kw) = false := by
      apply List.any_eq_false.mpr
      intro k hk
      simp [hallin k hk]
    have h2 : CASH_OUT_KEYWORDS.any (fun kw => pyContains (pyLower b) kw) = false := by
      apply List.any_eq_false.mpr
      intro k hk
      simp [hallout k hk]
    simp [transactionType, h1, h2]

/-- Witness for C4: `"paid"` lies in both keyword sets and resolves to
CASH_IN; a greeting with no keyword resolves to OTHER. -/
theorem claim4_witness :
    transactionType (pyLower "You paid RWF 100".toList) = "CASH_IN" ∧
    transactionType (pyLower "Hello there".toList) = "OTHER" :=
  ⟨(claim4_type_order "You paid RWF 100".toList).1 ⟨"paid".toList, by decide, by decide, by decide⟩,
   (claim4_type_order "Hello there".toList).2 (by decide) (by decide)⟩

/-- Claim C5: the amount loop tries the five patterns in their listed
order and stops at the first whose comma-stripped capture parses as a
number.  `amountResults` lists the per-pattern outcomes in source order;
a `none` entry covers both a failed search and a failed `float()` parse,
each of which makes the loop continue with the next pattern.  If every
pattern's outcome is `none` the amount is `0.0`, and `extractAmount` is
a total function, so this step never fails. -/
theorem claim5_amount_first_match (body : PyStr) :
    (∀ (i : ℕ) (a : ℚ) (hi : i < (amountResults body).length),
      (∀ (j : ℕ) (hj : j < (amountResults body).length), j < i →
        (amountResults body).get ⟨j, hj⟩ = none) →
      (amountResults body).get ⟨i, hi⟩ = some a → extractAmount body = a) ∧
    ((∀ (i : ℕ) (hi : i < (amountResults body).length),
        (amountResults body).get ⟨i, hi⟩ = none) → extractAmount body = 0) := by
  constructor
  · intro i a hi hprev hget
    unfold extractAmount
    rw [firstSome_eq_get (amountResults body) i hi a hprev hget]
    rfl
  · intro hall
    unfold extractAmount
    rw [firstSome_eq_none (amountResults body) hall]
    rfl

/-- Witness for C5 on the body `"RWF . 5 RWF"`: the first pattern
matches the capture `"."`, which fails the numeric parse, so the loop
continues and the second pattern parses `5`. -/
theorem claim5_witness : extractAmount "RWF . 5 RWF".toList = 5 :=
  (claim5_amount_first_match "RWF . 5 RWF".toList).1 1 5 (by decide)
    (fun j hj hj1 => by
      have hj0 : j = 0 := Nat.lt_one_iff.mp hj1
      subst hj0
      rfl)
    rfl

/-- Claim C6, counterexample: a message whose body field is entirely
absent is skipped by `process` — no dead-letter record is produced for
it (the claim says the pipeline dead-letters it). -/
theorem claim6_counterexample :
    processMessages 0 [{ body := none, date := some "1683014100000".toList,
                         address := some "MoMo".toList }] = ([], []) := by
  rfl

/-- Claim C6, amended: a message with an absent body never reaches the
extractor — `process` skips it, leaving both the Transaction output and
the dead-letter queue unchanged — and the extractor, if invoked directly
on it, returns a tagged failure (the `KeyError` description routed to
the dead-letter sink) rather than raising. -/
theorem claim6_amended (now : ℚ) (m : Msg) (ms : List Msg) (h : m.body = none) :
    processMessages now (m :: ms) = processMessages now ms ∧
    extract_transaction_details now m = .error "KeyError: @body".toList := by
  have hmomo : is_momo_sms m = false := by simp [is_momo_sms, h]
  constructor
  · simp [processMessages, hmomo]
  · simp [extract_transaction_details, h]

/-- Witness for C6 at the concrete body-less message. -/
theorem claim6_witness :
    processMessages 0 [{ body := none, date := none, address := none }]
        = processMessages 0 [] ∧
    extract_transaction_details 0 { body := none, date := none, address := none }
        = .error "KeyError: @body".toList :=
  claim6_amended 0 { body := none, date := none, address := none } [] rfl

/-- Claim C7, counterexample: the timestamp step is neither
always-converting nor exception-free.  The attribute
`"999999999999999999"` parses as an integer, yet its date
(≈ year 31 688 738) is out of `datetime`'s range, so the caught
`ValueError` makes the step fall back to `now` instead of converting;
and the attribute `"1000000000000000000000"` parses to a value beyond
the `localtime` range, so the step raises an uncaught
`OverflowError`/`OSError` and the whole message is dead-lettered. -/
theorem claim7_counterexample :
    resolveDate (some "999999999999999999".toList) 7 = .ok 7 ∧
    processMessages 0 [{ body := some "momo transaction".toList,
                         date := some "1000000000000000000000".toList,
                         address := none }]
      = ([], [({ body := some "momo transaction".toList,
                 date := some "1000000000000000000000".toList,
                 address := none },
               "OverflowError: timestamp out of range".toList)]) :=
  ⟨rfl, rfl⟩

/-- Claim C7, amended: the timestamp step produces a date whenever it
completes — a present `@date` parsing to an integer whose seconds value
lies in the `datetime` calendar range is converted from milliseconds
since the epoch, while an absent or unparsable attribute, or a parsed
value outside the calendar range but within the C `localtime` range
(whose `ValueError` the `except (ValueError, TypeError)` clause
catches), falls back to the current wall-clock time — but the step is
not exception-free: a parsed value beyond the `localtime` range raises
an uncaught `OverflowError`/`OSError`, failing extraction of the
message. -/
theorem claim7_amended (d : Option PyStr) (now : ℚ) :
    (∀ (s : PyStr) (n : ℤ), d = some s → pyIntParse s = some n →
      DATETIME_MIN_MS ≤ n → n < DATETIME_MAX_MS →
      resolveDate d now = .ok ((n : ℚ) / 1000)) ∧
    (∀ (s : PyStr) (n : ℤ), d = some s → pyIntParse s = some n →
      (n < DATETIME_MIN_MS ∨ DATETIME_MAX_MS ≤ n) →
      LOCALTIME_MIN_MS ≤ n → n ≤ LOCALTIME_MAX_MS →
      resolveDate d now = .ok now) ∧
    (∀ (s : PyStr) (n : ℤ), d = some s → pyIntParse s = some n →
      (n < LOCALTIME_MIN_MS ∨ LOCALTIME_MAX_MS < n) →
      resolveDate d now = .error "OverflowError: timestamp out of range".toList) ∧
    ((∀ s : PyStr, d = some s → pyIntParse s = none) → resolveDate d now = .ok now) ∧
    (d = none → resolveDate d now = .ok now) := by
  have hparse_ne : ∀ (s : PyStr) (n : ℤ), pyIntParse s = some n → s ≠ [] := by
    intro s n hp hnil
    subst hnil
    rw [show pyIntParse [] = (none : Option ℤ) from rfl] at hp
    exact Option.noConfusion hp
  refine ⟨?_, ?_, ?_, ?_, ?_⟩
  · intro s n hd hp hlo hhi
    subst hd
    have hfts : classifyTimestamp n = .ok := by
      have hnf : ¬(n < LOCALTIME_MIN_MS ∨ LOCALTIME_MAX_MS < n) := by
        push_neg
        constructor
        · have : LOCALTIME_MIN_MS ≤ DATETIME_MIN_MS := by
            norm_num [LOCALTIME_MIN_MS, DATETIME_MIN_MS]
          linarith
        · have : DATETIME_MAX_MS ≤ LOCALTIME_MAX_MS := by
            norm_num [DATETIME_MAX_MS, LOCALTIME_MAX_MS]
          linarith
      have hnv : ¬(n < DATETIME_MIN_MS ∨ DATETIME_MAX_MS ≤ n) := by
        push_neg
        exact ⟨hlo, hhi⟩
      simp [classifyTimestamp, hnf, hnv]
    simp [resolveDate, hparse_ne s n hp, hp, hfts]
  · intro s n hd hp hout hlo hhi
    subst hd
    have hfts : classifyTimestamp n = .valueError := by
      have hnf : ¬(n < LOCALTIME_MIN_MS ∨ LOCALTIME_MAX_MS < n) := by
        push_neg
        exact ⟨hlo, hhi⟩
      simp [classifyTimestamp, hnf, hout]
    simp [resolveDate, hparse_ne s n hp, hp, hfts]
  · intro s n hd hp hfatal
    subst hd
    have hfts : classifyTimestamp n = .fatal := by
      simp [classifyTimestamp, hfatal]
    simp [resolveDate, hparse_ne s n hp, hp, hfts]
  · intro hall
    cases d with
    | none => rfl
    | some s =>
      by_cases hs : s = []
      · subst hs
        rfl
      · simp [resolveDate, hs, hall s rfl]
  · intro hd
    subst hd
    rfl

/-- Witness for C7: the scenario timestamp (year 2023, in range)
converts from epoch milliseconds; an unparsable attribute and an absent
one fall back to `now`. -/
theorem claim7_witness :
    resolveDate (some "1683014100000".toList) 0 = .ok (((1683014100000 : ℤ) : ℚ) / 1000) ∧
    resolveDate (some "01/05/23".toList) 7 = .ok 7 ∧
    resolveDate none 7 = .ok 7 :=
  ⟨(claim7_amended (some "1683014100000".toList) 0).1 _ 1683014100000 rfl rfl
     (by norm_num [DATETIME_MIN_MS]) (by norm_num [DATETIME_MAX_MS]),
   (claim7_amended (some "01/05/23".toList) 7).2.2.2.1 (fun s hs => by cases hs; rfl),
   (claim7_amended none 7).2.2.2.2 rfl⟩

/-- Claim C8: for every non-empty batch the snapshot produced by
`calculate_stats` reconciles — it contains the `total_amount` and
`total_transactions` entries, the `amount_category_*` values (one per
category occurring in the batch, as built by `categoryAmountSection`)
sum exactly to the total amount (amounts are exact rationals here, so
"within floating-point tolerance" holds exactly), and the
`count_category_*` values sum to the number of transactions. -/
theorem claim8_stats_reconcile (ts : List Transaction) (h : ts ≠ []) :
    ("total_amount", StatValue.rat (totalAmount ts)) ∈ calculate_stats ts ∧
    ("total_transactions", StatValue.int ts.length) ∈ calculate_stats ts ∧
    ((categoriesOf ts).map fun c => amountForCategory ts c).sum = totalAmount ts ∧
    ((categoriesOf ts).map fun c => countForCategory ts c).sum = ts.length := by
  have hnd : (categoriesOf ts).Nodup := List.nodup_dedup _
  have hcover : ∀ t ∈ ts, t.category ∈ categoriesOf ts := fun t ht =>
    List.mem_dedup.mpr (List.mem_map_of_mem _ ht)
  refine ⟨?_, ?_, ?_, ?_⟩
  · simp [calculate_stats, h]
  · simp [calculate_stats, h]
  · simpa [amountForCategory, totalAmount] using
      sum_fibers (fun t : Transaction => t.category) (fun t : Transaction => t.amount)
        ts (categoriesOf ts) hnd hcover
  · have h2 := sum_fibers (fun t : Transaction => t.category) (fun _ : Transaction => (1 : ℕ))
      ts (categoriesOf ts) hnd hcover
    simp only [sum_map_one] at h2
    simpa [countForCategory] using h2

/-- Witness for C8 on the concrete two-transaction `sampleBatch`. -/
theorem claim8_witness :
    sampleBatch ≠ [] ∧
    (("total_amount", StatValue.rat (totalAmount sampleBatch)) ∈ calculate_stats sampleBatch ∧
     ("total_transactions", StatValue.int sampleBatch.length) ∈ calculate_stats sampleBatch ∧
     ((categoriesOf sampleBatch).map fun c => amountForCategory sampleBatch c).sum
        = totalAmount sampleBatch ∧
     ((categoriesOf sampleBatch).map fun c => countForCategory sampleBatch c).sum
        = sampleBatch.length) :=
  ⟨by simp [sampleBatch], claim8_stats_reconcile sampleBatch (by simp [sampleBatch])⟩

/-- Claim C9: `calculate_stats` on the empty batch returns the empty
snapshot — no count or amount keys exist in it — and, since the guard
returns before any aggregation, the average's division is unreachable,
so no division-by-zero error can occur. -/
theorem claim9_empty_stats :
    calculate_stats [] = [] ∧ ∀ kv, kv ∈ calculate_stats [] → False := by
  refine ⟨rfl, ?_⟩
  intro kv hkv
  rw [show calculate_stats [] = [] from rfl] at hkv
  exact List.not_mem_nil _ hkv

/-- Claim C10 (implicit): `process` invokes the extractor only for
messages `is_momo_sms` accepts — those with a body whose lower-cased
text contains one of the fixed indicator substrings of
`momo_indicators` — and every message lacking a body or containing no
indicator is skipped silently, producing neither a Transaction nor a
dead-letter record. -/
theorem claim10_skip_non_momo (now : ℚ) (m : Msg) (ms : List Msg)
    (h : ∀ b, m.body = some b → ∀ ind ∈ momo_indicators, pyContains (pyLower b) ind = false) :
    is_momo_sms m = false ∧ processMessages now (m :: ms) = processMessages now ms := by
  have hmomo : is_momo_sms m = false := by
    cases hb : m.body with
    | none => simp [is_momo_sms, hb]
    | some b =>
      have hall := h b hb
      simp only [is_momo_sms, hb]
      apply List.any_eq_false.mpr
      intro ind hind
      simp [hall ind hind]
  exact ⟨hmomo, by simp [processMessages, hmomo]⟩

/-- Witness for C10 at the concrete indicator-free message `"hi"`. -/
theorem claim10_witness :
    is_momo_sms { body := some "hi".toList, date := none, address := none } = false ∧
    processMessages 0 [{ body := some "hi".toList, date := none, address := none }]
        = processMessages 0 [] :=
  claim10_skip_non_momo 0 { body := some "hi".toList, date := none, address := none } []
    (fun b hb => by cases hb; decide)

end MomoSms
